import Mathlib

/- Verification of the zod-to-schema repository's schema-translation utilities
   (src/zodToMongoose.ts, src/zodReferences.ts and the spec'd relational
   generator) against their natural-language specification.

   The Zod schema trees the library consumes are embedded as a mutual
   inductive (`ZodType` for one field descriptor, `Shape` for the ordered
   field map of a ZodObject).  JavaScript runtime values that flow through
   `zodToObject` are embedded as `JsValue`.  All definitions are executable. -/

/-- A JavaScript value usable as a Zod default value or literal payload.
    Default thunks in the source (`() => v`) are represented by the value
    they return; thunk side effects are outside the model. -/
inductive Value where
  | str (s : String)
  | num (n : Int)
  | bool (b : Bool)
deriving DecidableEq, Repr

/-- One entry of `ZodString._def.checks`, as inspected by the converter's
    `forEach` over `stringSchema._def.checks` (kind plus payload). -/
inductive StringCheck where
  | min (v : Nat)
  | max (v : Nat)
  | email
  | regex (pattern : String)
  | includes (s : String)
  | length (v : Nat)
  | uuid
deriving DecidableEq, Repr

/-- One entry of `ZodNumber._def.checks`. -/
inductive NumCheck where
  | min (v : Int)
  | max (v : Int)
  | int
deriving DecidableEq, Repr

/-- A JavaScript runtime value handed to `zodToObject` as `data`.  A key that
    is absent from an object is represented by absence from the field list
    (explicit `undefined` properties are outside the model). -/
inductive JsValue where
  | null
  | str (s : String)
  | num (n : Int)
  | bool (b : Bool)
  | date (ms : Int)
  | obj (fields : List (String × JsValue))
  | arr (items : List JsValue)

mutual
/-- A Zod type descriptor, as the converters inspect it: the constructors
    mirror the Zod classes the source dispatches on (`ZodString`, `ZodNumber`,
    `ZodBoolean`, `ZodDate`, `ZodArray`, `ZodEnum`, `ZodLiteral`, `ZodObject`,
    `ZodOptional`, `ZodNullable`, `ZodDefault`), plus `ZodEffects` — the
    wrapper `.transform(...)` produces, which none of the converters
    recognize.  String and number literals cover the `typeof` cases the
    literal branch distinguishes. -/
inductive ZodType where
  | string (checks : List StringCheck)
  | number (checks : List NumCheck)
  | boolean
  | date
  | array (elem : ZodType)
  | enum (options : List String)
  | litStr (v : String)
  | litNum (v : Int)
  | object (shape : Shape)
  | optional (inner : ZodType)
  | nullable (inner : ZodType)
  | withDefault (inner : ZodType) (defaultValue : Value)
  | effects (inner : ZodType) (transform : JsValue → JsValue)

/-- The ordered field map of a `ZodObject` (`zodSchema.shape`), iterated by
    `Object.entries` in declaration order. -/
inductive Shape where
  | nil
  | cons (key : String) (field : ZodType) (rest : Shape)
end

/-- Key lookup in a ZodObject shape (`key in objShape` / `objShape[key]`;
    JS object keys are unique, so first match is the match). -/
def Shape.lookup : Shape → String → Option ZodType
  | .nil, _ => none
  | .cons k t rest, key => if k = key then some t else rest.lookup key

/-- The shape's fields as an ordered association list. -/
def Shape.toList : Shape → List (String × ZodType)
  | .nil => []
  | .cons k t rest => (k, t) :: rest.toList

/-- Element tags for array-typed fields (`[String]`, `[Number]`, `[Boolean]`,
    `[Schema.Types.Mixed]`). -/
inductive MongooseElem where
  | eString
  | eNumber
  | eBoolean
  | eMixed
deriving DecidableEq, Repr

/-- The mongoose type tags the converter assigns to `mongooseField.type`. -/
inductive MongooseType where
  | mString
  | mNumber
  | mBoolean
  | mDate
  | mMixed
  | objectId
  | arr (elem : MongooseElem)
  | typeofTag (t : String)
deriving DecidableEq, Repr

/-- The value of `mongooseField.match`: either the fixed email regex the
    email branch installs, or a user regex carried over from the check. -/
inductive MatchPat where
  | emailPattern
  | regex (pattern : String)
deriving DecidableEq, Repr

/-- The Target Field Definition: the `SchemaTypeOptions` record the converter
    builds per field.  `matchPattern` embeds the source's `match` property
    (`match` is a reserved word in Lean); `validate` holds the installed
    validator's message (the validator function itself is `Number.isInteger`
    in the source). -/
structure MongooseField where
  type : Option MongooseType
  required : Bool
  default : Option Value
  ref : Option String
  minlength : Option Nat
  maxlength : Option Nat
  matchPattern : Option MatchPat
  length : Option Nat
  enum : Option (List Value)
  min : Option Int
  max : Option Int
  validate : Option String
deriving DecidableEq, Repr

/-- The freshly created `mongooseField` object, before any property is set. -/
def emptyField : MongooseField :=
  ⟨none, true, none, none, none, none, none, none, none, none, none, none⟩

/-- Result of the unwrap loop: the final `currentSchema` plus the three
    recorded flags/values. -/
structure UnwrapResult where
  base : ZodType
  isOptional : Bool
  hasDefault : Bool
  defaultValue : Option Value

/-- The source's unwrap loop (zodToMongoose.ts lines 47–65): repeatedly strip
    the outermost `ZodOptional`/`ZodDefault`/`ZodNullable` layer, setting
    `isOptional` on each Optional layer, and overwriting
    `hasDefault`/`defaultValue` on each Default layer (the loop body's three
    sequential `if`s re-inspect `currentSchema` after each strip, so the net
    effect equals stripping one outermost layer per recursive step). -/
def unwrap : ZodType → Bool → Bool → Option Value → UnwrapResult
  | .optional i, _, hd, dv => unwrap i true hd dv
  | .withDefault i v, o, _, _ => unwrap i o true (some v)
  | .nullable i, o, hd, dv => unwrap i o hd dv
  | t, o, hd, dv => ⟨t, o, hd, dv⟩

/-- The unwrapped non-wrapper descriptor reached by the unwrap loop. -/
def unwrapBase : ZodType → ZodType
  | .optional i => unwrapBase i
  | .nullable i => unwrapBase i
  | .withDefault i _ => unwrapBase i
  | t => t

/-- Whether some layer of the Optional/Nullable/Defaulted wrapper chain is an
    Optional layer ("was wrapped in Optional at any wrapper nesting depth"). -/
def hasOptionalWrapper : ZodType → Bool
  | .optional _ => true
  | .nullable i => hasOptionalWrapper i
  | .withDefault i _ => hasOptionalWrapper i
  | _ => false

/-- The default value the unwrap loop ends up keeping: each Default layer
    overwrites the previous capture, so the innermost Default layer of the
    wrapper chain wins. -/
def capturedDefaultValue : ZodType → Option Value
  | .optional i => capturedDefaultValue i
  | .nullable i => capturedDefaultValue i
  | .withDefault i v => some ((capturedDefaultValue i).getD v)
  | _ => none

/-- Stated from the spec's words, for comparison with the code: the value of
    the first Defaulted layer seen during outermost-first unwrapping
    ("capture `defaultValue` by invoking the default-value thunk the first
    time a Defaulted layer is seen"). -/
def firstDefaultValue : ZodType → Option Value
  | .optional i => firstDefaultValue i
  | .nullable i => firstDefaultValue i
  | .withDefault _ v => some v
  | _ => none

/-- The `check.kind === 'length' && check.value === 24` test on the `id`
    field's string checks. -/
def hasLength24 (checks : List StringCheck) : Bool :=
  checks.any fun c => match c with
    | .length n => n == 24
    | _ => false

/-- The reference-marker detection (zodToMongoose.ts lines 67–88): the
    unwrapped schema must be a plain `ZodObject` whose shape has a `_ref`
    field that is a string-valued `ZodLiteral` and an `id` field that is a
    `ZodString` carrying a length-24 check; returns the referenced model
    name. -/
def detectRef : ZodType → Option String
  | .object shp =>
    match shp.lookup "_ref", shp.lookup "id" with
    | some (.litStr m), some (.string checks) =>
      if hasLength24 checks then some m else none
    | _, _ => none
  | _ => none

/-- Element-type inference for the `ZodArray` branch's inner switch. -/
def elemTag : ZodType → MongooseElem
  | .string _ => .eString
  | .number _ => .eNumber
  | .boolean => .eBoolean
  | .object _ => .eMixed
  | _ => .eMixed

/-- One step of the `stringSchema._def.checks.forEach` loop (the `includes`
    case is an explicit no-op in the source, unknown kinds fall to the
    default no-op). -/
def applyStringCheck (f : MongooseField) : StringCheck → MongooseField
  | .min v => { f with minlength := some v }
  | .max v => { f with maxlength := some v }
  | .email => { f with matchPattern := some .emailPattern }
  | .regex p => { f with matchPattern := some (.regex p) }
  | .includes _ => f
  | .length v => { f with length := some v }
  | .uuid => f

def applyStringChecks (f : MongooseField) : List StringCheck → MongooseField
  | [] => f
  | c :: rest => applyStringChecks (applyStringCheck f c) rest

/-- One step of the `numberSchema._def.checks.forEach` loop; the `int` case
    installs the integer validator with its fixed message. -/
def applyNumCheck (f : MongooseField) : NumCheck → MongooseField
  | .min v => { f with min := some v }
  | .max v => { f with max := some v }
  | .int => { f with validate := some "{VALUE} is not an integer value" }

def applyNumChecks (f : MongooseField) : List NumCheck → MongooseField
  | [] => f
  | c :: rest => applyNumChecks (applyNumCheck f c) rest

/-- The `switch (currentSchema.constructor)` scalar mapping (zodToMongoose.ts
    lines 90–193), entered only when the field is not a reference.  The final
    catch-all is the source's `default:` branch assigning
    `Schema.Types.Mixed`. -/
def scalarField : ZodType → MongooseField
  | .string checks => applyStringChecks { emptyField with type := some .mString } checks
  | .number checks => applyNumChecks { emptyField with type := some .mNumber } checks
  | .boolean => { emptyField with type := some .mBoolean }
  | .date => { emptyField with type := some .mDate }
  | .array e => { emptyField with type := some (.arr (elemTag e)) }
  | .enum opts => { emptyField with type := some .mString, enum := some (opts.map .str) }
  | .litStr s => { emptyField with type := some (.typeofTag "string"), enum := some [.str s] }
  | .litNum n => { emptyField with type := some (.typeofTag "number"), enum := some [.num n] }
  | .object _ => { emptyField with type := some .mMixed }
  | _ => { emptyField with type := some .mMixed }

/-- The per-field body of `zodToMongoose`: unwrap, detect a reference (which
    sets ObjectId type and `ref`), otherwise run the scalar switch; then set
    `default` when a Default layer was seen and finally
    `required = !isOptional`. -/
def convertField (schema : ZodType) : MongooseField :=
  let u := unwrap schema false false none
  let f0 := match detectRef u.base with
    | some m => { emptyField with type := some .objectId, ref := some m }
    | none => scalarField u.base
  let f1 := if u.hasDefault then { f0 with default := u.defaultValue } else f0
  { f1 with required := !u.isOptional }

/-- `zodToMongoose`: walk the shape's entries in declaration order and build
    the `SchemaDefinition` association of field name to field options. -/
def zodToMongoose : Shape → List (String × MongooseField)
  | .nil => []
  | .cons k t rest => (k, convertField t) :: zodToMongoose rest

/-- The transform `zodRef` appends: `(data) => data.id` (on a parsed marker
    object the `id` key is always present; other inputs are returned
    unchanged to keep the function total). -/
def refTransform : JsValue → JsValue
  | .obj fields => (fields.lookup "id").getD .null
  | v => v

/-- `zodRef` (src/zodReferences.ts): a two-field object schema — the `_ref`
    literal naming the model and the caller-supplied `id` schema — with the
    `.transform((data) => data.id)` appended, which wraps the object in a
    `ZodEffects`. -/
def zodRef (modelName : String) (idSchema : ZodType) : ZodType :=
  .effects (.object (.cons "_ref" (.litStr modelName) (.cons "id" idSchema .nil))) refTransform

/-- The `idSchema` default argument of `zodRef`: `z.string().length(24)`. -/
def zodRefDefaultId : ZodType := .string [.length 24]

/-- The "received" type name used in Zod invalid-type messages. -/
def typeName : JsValue → String
  | .null => "null"
  | .str _ => "string"
  | .num _ => "number"
  | .bool _ => "boolean"
  | .date _ => "date"
  | .obj _ => "object"
  | .arr _ => "array"

/-- One Zod validation issue: the field path (array indices rendered as
    numerals, as `err.path.join('.')` renders them) and the message. -/
structure ZodIssue where
  path : List String
  message : String
deriving DecidableEq, Repr

/-- A default value, materialized as a runtime value. -/
def valueToJs : Value → JsValue
  | .str s => .str s
  | .num n => .num n
  | .bool b => .bool b

/-- Messages of the failing string checks.  This models the Zod dependency:
    the regex and uuid checks' pattern matching is abstracted (treated as
    passing), and the email check is approximated; the claims under proof
    never rest on these three checks' outcomes. -/
def stringCheckMsgs (checks : List StringCheck) (s : String) : List String :=
  checks.filterMap fun c => match c with
    | .min n => if s.length < n then
        some ("String must contain at least " ++ toString n ++ " character(s)") else none
    | .max n => if s.length > n then
        some ("String must contain at most " ++ toString n ++ " character(s)") else none
    | .length n => if s.length ≠ n then
        some ("String must contain exactly " ++ toString n ++ " character(s)") else none
    | .email => if s.contains '@' then none else some "Invalid email"
    | .regex _ => none
    | .includes sub => if sub.isPrefixOf s ∨ (s.splitOn sub).length > 1 then none
        else some ("Invalid input: must include \"" ++ sub ++ "\"")
    | .uuid => none

/-- Messages of the failing number checks (numbers are modelled as integers,
    so the integer check always passes). -/
def numCheckMsgs (checks : List NumCheck) (n : Int) : List String :=
  checks.filterMap fun c => match c with
    | .min v => if n < v then
        some ("Number must be greater than or equal to " ++ toString v) else none
    | .max v => if v < n then
        some ("Number must be less than or equal to " ++ toString v) else none
    | .int => none

mutual
/-- Zod's parse of a present value, modelling the dependency's documented
    behavior as `safeParse` uses it: scalar branches check type tag then
    checks; objects parse every field and aggregate all issues (prefixing the
    field key to each issue path); arrays parse every element likewise;
    `ZodOptional`/`ZodDefault` pass a present value through to the inner
    type; `ZodNullable` accepts null; `ZodEffects` parses the inner type and
    applies the transform to the success value. -/
def parseValue : ZodType → JsValue → Except (List ZodIssue) JsValue
  | .string checks, v =>
    match v with
    | .str s =>
      match stringCheckMsgs checks s with
      | [] => .ok (.str s)
      | msgs => .error (msgs.map fun m => ⟨[], m⟩)
    | w => .error [⟨[], "Expected string, received " ++ typeName w⟩]
  | .number checks, v =>
    match v with
    | .num n =>
      match numCheckMsgs checks n with
      | [] => .ok (.num n)
      | msgs => .error (msgs.map fun m => ⟨[], m⟩)
    | w => .error [⟨[], "Expected number, received " ++ typeName w⟩]
  | .boolean, v =>
    match v with
    | .bool b => .ok (.bool b)
    | w => .error [⟨[], "Expected boolean, received " ++ typeName w⟩]
  | .date, v =>
    match v with
    | .date ms => .ok (.date ms)
    | w => .error [⟨[], "Expected date, received " ++ typeName w⟩]
  | .array e, v =>
    match v with
    | .arr items =>
      let r := parseItems e items 0
      if r.1.isEmpty then .ok (.arr r.2) else .error r.1
    | w => .error [⟨[], "Expected array, received " ++ typeName w⟩]
  | .enum opts, v =>
    match v with
    | .str s => if opts.contains s then .ok (.str s) else .error [⟨[], "Invalid enum value"⟩]
    | w => .error [⟨[], "Expected string, received " ++ typeName w⟩]
  | .litStr l, v =>
    match v with
    | .str s => if s = l then .ok (.str s) else .error [⟨[], "Invalid literal value"⟩]
    | _ => .error [⟨[], "Invalid literal value"⟩]
  | .litNum l, v =>
    match v with
    | .num n => if n = l then .ok (.num n) else .error [⟨[], "Invalid literal value"⟩]
    | _ => .error [⟨[], "Invalid literal value"⟩]
  | .object shp, v =>
    match v with
    | .obj d =>
      let r := parseShape shp d
      if r.1.isEmpty then .ok (.obj r.2) else .error r.1
    | w => .error [⟨[], "Expected object, received " ++ typeName w⟩]
  | .optional t, v => parseValue t v
  | .nullable t, v =>
    match v with
    | .null => .ok .null
    | w => parseValue t w
  | .withDefault t _, v => parseValue t v
  | .effects t f, v => (parseValue t v).map f
termination_by t _ => (sizeOf t, 0, 0)

/-- Zod's parse of a missing (`undefined`) field value: Optional yields an
    omitted key, Default materializes the default value through the inner
    parse, Nullable defers to the inner type, everything else is the
    "Required" issue. -/
def parseUndef : ZodType → Except (List ZodIssue) (Option JsValue)
  | .optional _ => .ok none
  | .nullable t => parseUndef t
  | .withDefault t v => (parseValue t (valueToJs v)).map some
  | _ => .error [⟨[], "Required"⟩]
termination_by t => (sizeOf t, 2, 0)

/-- Parse of one object field against the (possibly absent) value stored
    under its key. -/
def fieldParse : ZodType → Option JsValue → Except (List ZodIssue) (Option JsValue)
  | t, none => parseUndef t
  | t, some v => (parseValue t v).map some
termination_by t _ => (sizeOf t, 3, 0)

/-- Parse of an object shape against the input's field list: collects every
    field's issues (with the key prefixed to each path) and the output pairs
    of the fields that produced a value, both in shape declaration order;
    unknown input keys are stripped. -/
def parseShape : Shape → List (String × JsValue) → List ZodIssue × List (String × JsValue)
  | .nil, _ => ([], [])
  | .cons k t rest, d =>
    let head := fieldParse t (d.lookup k)
    let tail := parseShape rest d
    match head with
    | .ok none => tail
    | .ok (some v) => (tail.1, (k, v) :: tail.2)
    | .error is => (is.map (fun i => ⟨k :: i.path, i.message⟩) ++ tail.1, tail.2)
termination_by s _ => (sizeOf s, 0, 0)

/-- Parse of every array element, collecting all issues with the element
    index prefixed to their paths. -/
def parseItems : ZodType → List JsValue → Nat → List ZodIssue × List JsValue
  | _, [], _ => ([], [])
  | e, v :: rest, idx =>
    let head := parseValue e v
    let tail := parseItems e rest (idx + 1)
    match head with
    | .ok w => (tail.1, w :: tail.2)
    | .error is => (is.map (fun i => ⟨toString idx :: i.path, i.message⟩) ++ tail.1, tail.2)
termination_by e items _ => (sizeOf e, 4, sizeOf items)
end

/-- Rendering of one violation: `"<dotted.path> - <message>"`. -/
def renderIssue (i : ZodIssue) : String :=
  String.intercalate "." i.path ++ " - " ++ i.message

/-- `zodSchema.partial()`: every field of the shape wrapped in Optional. -/
def widenShape : Shape → Shape
  | .nil => .nil
  | .cons k t rest => .cons k (.optional t) (widenShape rest)

/-- The `schemaToUse` selection of `zodToObject`: widen only when the caller
    passed a truthy `partial` option and the schema is a `ZodObject`. -/
def effectiveSchema (schema : ZodType) (opts : Option Bool) : ZodType :=
  match opts, schema with
  | some true, .object shp => .object (widenShape shp)
  | _, _ => schema

/-- `zodToObject` (zodToMongoose.ts lines 247–266): run `safeParse` of the
    effective schema against the data; on success return the coerced value,
    on failure throw a single error joining every issue as
    `"<dotted.path> - <message>"` with `", "` under the fixed prefix.  The
    `opts` argument is the `options?.partial` flag. -/
def zodToObject (schema : ZodType) (data : JsValue) (opts : Option Bool) :
    Except String JsValue :=
  match parseValue (effectiveSchema schema opts) data with
  | .ok v => .ok v
  | .error issues =>
    .error ("Zod validation error: " ++ String.intercalate ", " (issues.map renderIssue))

/-- The input object restricted to the shape's keys, in shape declaration
    order: what a fully-widened parse of valid present fields returns. -/
def restrictShape : Shape → List (String × JsValue) → List (String × JsValue)
  | .nil, _ => []
  | .cons k _ rest, d =>
    match d.lookup k with
    | some v => (k, v) :: restrictShape rest d
    | none => restrictShape rest d

/-- A registered mongoose model: its name, the schema definition it was built
    from, and the `timestamps` flag passed to the `Schema` constructor. -/
structure MModel where
  modelName : String
  schemaDef : List (String × MongooseField)
  timestamps : Bool
deriving DecidableEq, Repr

/-- The process-wide `mongoose.models` name-to-model registry, threaded
    explicitly. -/
abbrev Registry := List (String × MModel)

/-- `createMongooseModel` (zodToMongoose.ts lines 217–234): return the
    already-registered model of that name if present, otherwise convert the
    schema, register a model built with `timestamps: true`, and return it
    together with the updated registry. -/
def createMongooseModel (reg : Registry) (modelName : String) (shp : Shape) :
    MModel × Registry :=
  match List.lookup modelName reg with
  | some m => (m, reg)
  | none =>
    let m : MModel := ⟨modelName, zodToMongoose shp, true⟩
    (m, (modelName, m) :: reg)

/-- Classification result of the document-mapper relationship classifier
    (spec §4.2, document-mapper mode). -/
inductive DocClass where
  | scalar (t : ZodType)
  | singleRef (model : String)
  | arrayRef (model : String)
  | arrayScalar (elem : MongooseElem)

/-- Modelled from the spec: the document-mapper relationship classifier with
    a caller-supplied relationship-mapping table (spec §4.2 rule order).  The
    table-accepting converter variant is not under `src/` — the
    `zodToMongoose` there takes no table — so the rules are taken verbatim
    from §4.2, first match wins: (1) Array with a table entry → ArrayRef,
    (2) table entry → SingleRef, (3) Reference Marker → SingleRef, (4) Array
    → ArrayScalar with the code's element inference, (5) scalar. -/
def classifyDocField (t : ZodType) (fieldName : String)
    (table : List (String × String)) : DocClass :=
  match table.lookup fieldName, t with
  | some m, .array _ => .arrayRef m
  | some m, _ => .singleRef m
  | none, _ =>
    match detectRef t with
    | some m => .singleRef m
    | none =>
      match t with
      | .array e => .arrayScalar (elemTag e)
      | _ => .scalar t

/-- The `schema instanceof ZodObject` test the relational generator applies
    to every model entry. -/
def isObjectSchema : ZodType → Bool
  | .object _ => true
  | _ => false

/-- Modelled from the spec: the scalar type rendering of the relational
    generator (spec §4.2/§4.4; the generator's source `src/zodToPrisma.ts`
    is not under `src/`).  Optional/Nullable render the nullable marker,
    bare objects render the opaque JSON column. -/
def prismaTypeName : ZodType → String
  | .string _ => "String"
  | .number _ => "Float"
  | .boolean => "Boolean"
  | .date => "DateTime"
  | .array e => prismaTypeName e ++ "[]"
  | .enum _ => "Enum"
  | .litStr _ => "String"
  | .litNum _ => "Float"
  | .object _ => "Json"
  | .optional i => prismaTypeName i ++ "?"
  | .nullable i => prismaTypeName i ++ "?"
  | .withDefault i _ => prismaTypeName i
  | .effects i _ => prismaTypeName i

/-- Modelled from the spec: the field lines of one relational model block,
    in the schema's own declaration order (spec §4.4). -/
def renderModelFields : Shape → List String
  | .nil => []
  | .cons k t rest => ("  " ++ k ++ " " ++ prismaTypeName t) :: renderModelFields rest

/-- Modelled from the spec: one rendered model block (spec §3 "Relational
    Model Block"); relation/enum attribute synthesis is outside the modelled
    fragment, which claim C8 does not touch. -/
def renderModel : String × ZodType → String
  | (name, .object shp) =>
    "model " ++ name ++ " \x7b\n" ++ String.intercalate "\n" (renderModelFields shp) ++ "\n\x7d"
  | (name, _) => "model " ++ name ++ " \x7b\n\x7d"

/-- Modelled from the spec: the fixed datasource/generator preamble the
    generated text begins with (spec §4.4). -/
def prismaPreamble : String :=
  "datasource db \x7b\n  provider = \"postgresql\"\n  url      = env(\"POSTGRESQL_DATABASE_URL\")\n\x7d\n\ngenerator client \x7b\n  provider = \"prisma-client-js\"\n\x7d\n\n"

/-- Modelled from the spec: `zodToPrisma`, the relational-schema-text
    generator (spec §4.4), whose source file `src/zodToPrisma.ts` is not
    under `src/` (only its tests are).  Every model entry must carry an
    Object-shaped schema; any other kind raises immediately with the fixed
    descriptive message (taken verbatim from the generator's test) before
    any text is emitted.  On success it renders the preamble plus one model
    block per schema in input order; the two cross-reference maps drive
    relation inference, which is outside the modelled fragment. -/
def zodToPrisma (models : List (String × ZodType))
    (_schemaToModelName : List (ZodType × String))
    (_modelNameToSchema : List (String × ZodType)) : Except String String :=
  if models.all (fun m => isObjectSchema m.2) then
    .ok (prismaPreamble ++ String.intercalate "\n\n" (models.map renderModel))
  else
    .error "Only ZodObject schemas are supported for Prisma model generation."

/-- The descriptor kinds the scalar switch recognizes with a dedicated case
    (String, Number, Boolean, Date, Array, Enum, Literal, Object); everything
    else hits the switch's `default:` branch. -/
def recognizedKind : ZodType → Bool
  | .string _ => true
  | .number _ => true
  | .boolean => true
  | .date => true
  | .array _ => true
  | .enum _ => true
  | .litStr _ => true
  | .litNum _ => true
  | .object _ => true
  | _ => false

/-- Closed form of the unwrap loop: the base descriptor, whether an Optional
    layer occurs in the wrapper chain, whether a Default layer occurs, and
    the innermost Default layer's value (falling back to the incoming
    accumulator when no Default layer occurs). -/
theorem unwrap_eq : ∀ (t : ZodType) (o hd : Bool) (dv : Option Value),
    unwrap t o hd dv =
      ⟨unwrapBase t, o || hasOptionalWrapper t,
       hd || (capturedDefaultValue t).isSome, (capturedDefaultValue t).or dv⟩
  | .optional i, o, hd, dv => by
    rw [show unwrap (.optional i) o hd dv = unwrap i true hd dv from rfl,
        unwrap_eq i true hd dv]
    simp [unwrapBase, hasOptionalWrapper, capturedDefaultValue]
  | .nullable i, o, hd, dv => by
    rw [show unwrap (.nullable i) o hd dv = unwrap i o hd dv from rfl,
        unwrap_eq i o hd dv]
    simp [unwrapBase, hasOptionalWrapper, capturedDefaultValue]
  | .withDefault i v, o, hd, dv => by
    rw [show unwrap (.withDefault i v) o hd dv = unwrap i o true (some v) from rfl,
        unwrap_eq i o true (some v)]
    simp only [unwrapBase, hasOptionalWrapper, capturedDefaultValue]
    cases capturedDefaultValue i <;> simp [Option.or]
  | .string _, o, hd, dv => by
    simp [unwrap, unwrapBase, hasOptionalWrapper, capturedDefaultValue, Option.or]
  | .number _, o, hd, dv => by
    simp [unwrap, unwrapBase, hasOptionalWrapper, capturedDefaultValue, Option.or]
  | .boolean, o, hd, dv => by
    simp [unwrap, unwrapBase, hasOptionalWrapper, capturedDefaultValue, Option.or]
  | .date, o, hd, dv => by
    simp [unwrap, unwrapBase, hasOptionalWrapper, capturedDefaultValue, Option.or]
  | .array _, o, hd, dv => by
    simp [unwrap, unwrapBase, hasOptionalWrapper, capturedDefaultValue, Option.or]
  | .enum _, o, hd, dv => by
    simp [unwrap, unwrapBase, hasOptionalWrapper, capturedDefaultValue, Option.or]
  | .litStr _, o, hd, dv => by
    simp [unwrap, unwrapBase, hasOptionalWrapper, capturedDefaultValue, Option.or]
  | .litNum _, o, hd, dv => by
    simp [unwrap, unwrapBase, hasOptionalWrapper, capturedDefaultValue, Option.or]
  | .object _, o, hd, dv => by
    simp [unwrap, unwrapBase, hasOptionalWrapper, capturedDefaultValue, Option.or]
  | .effects _ _, o, hd, dv => by
    simp [unwrap, unwrapBase, hasOptionalWrapper, capturedDefaultValue, Option.or]

/-- The scalar switch never sets a default value. -/
theorem scalarField_default (t : ZodType) : (scalarField t).default = none := by
  have hs : ∀ (f : MongooseField) (cs : List StringCheck),
      (applyStringChecks f cs).default = f.default := by
    intro f cs
    induction cs generalizing f with
    | nil => rfl
    | cons c rest ih => cases c <;> simp [applyStringChecks, applyStringCheck, ih]
  have hn : ∀ (f : MongooseField) (cs : List NumCheck),
      (applyNumChecks f cs).default = f.default := by
    intro f cs
    induction cs generalizing f with
    | nil => rfl
    | cons c rest ih => cases c <;> simp [applyNumChecks, applyNumCheck, ih]
  cases t <;> simp [scalarField, emptyField, hs, hn]

/-- The `required` property of every produced field definition is the boolean
    negation of "an Optional layer occurs in the field's wrapper chain". -/
theorem convertField_required (t : ZodType) :
    (convertField t).required = !hasOptionalWrapper t := by
  simp only [convertField, unwrap_eq]
  rfl

/-- The `default` property of every produced field definition equals the
    innermost Default layer's value (and is absent when no Default layer
    occurs in the wrapper chain). -/
theorem convertField_default (t : ZodType) :
    (convertField t).default = capturedDefaultValue t := by
  simp only [convertField, unwrap_eq, Bool.false_or, Option.or_none]
  cases hc : capturedDefaultValue t with
  | none =>
    simp only [hc, Option.isSome_none, Bool.false_eq_true, if_false]
    cases hdet : detectRef (unwrapBase t) with
    | none => simpa using scalarField_default (unwrapBase t)
    | some m => rfl
  | some v => simp [hc]

/-- Every field of the input shape is converted, in order. -/
theorem mem_zodToMongoose : ∀ (shp : Shape) (k : String) (t : ZodType),
    (k, t) ∈ shp.toList → (k, convertField t) ∈ zodToMongoose shp
  | .nil, _, _, hmem => by simp [Shape.toList] at hmem
  | .cons k' t' rest, k, t, hmem => by
    simp only [Shape.toList, List.mem_cons, Prod.mk.injEq] at hmem
    rcases hmem with ⟨hk, ht⟩ | hmem
    · subst hk; subst ht; simp [zodToMongoose]
    · exact List.mem_cons_of_mem _ (mem_zodToMongoose rest k t hmem)

/-- The converter yields exactly one definition per input field. -/
theorem zodToMongoose_length : ∀ (shp : Shape),
    (zodToMongoose shp).length = shp.toList.length
  | .nil => rfl
  | .cons _ _ rest => by
    simp [zodToMongoose, Shape.toList, zodToMongoose_length rest]

/-- Parsing a fully-widened shape whose present field values all parse to
    themselves succeeds with no issues, returning the input restricted to the
    shape's keys. -/
theorem parseShape_widen : ∀ (shp : Shape) (d : List (String × JsValue)),
    (∀ k t, (k, t) ∈ shp.toList → ∀ v, d.lookup k = some v → parseValue t v = .ok v) →
    parseShape (widenShape shp) d = ([], restrictShape shp d)
  | .nil, d, _ => by simp [widenShape, parseShape, restrictShape]
  | .cons k t rest, d, hok => by
    have ih := parseShape_widen rest d (fun k' t' hm v hv =>
      hok k' t' (by simp only [Shape.toList, List.mem_cons]; right; exact hm) v hv)
    cases hl : d.lookup k with
    | none =>
      simp [widenShape, parseShape, fieldParse, hl, parseUndef, restrictShape, ih]
    | some v =>
      have hv := hok k t (by simp [Shape.toList]) v hl
      simp [widenShape, parseShape, fieldParse, hl, parseValue, hv, restrictShape, ih,
        Except.map]

/-- Every issue any single field produces is reported, key-prefixed, in the
    shape's aggregated issue list: the object parse never stops at the first
    failing field. -/
theorem parseShape_mem_issues : ∀ (shp : Shape) (d : List (String × JsValue))
    (k : String) (t : ZodType) (is : List ZodIssue) (i : ZodIssue),
    (k, t) ∈ shp.toList → fieldParse t (d.lookup k) = .error is → i ∈ is →
    (⟨k :: i.path, i.message⟩ : ZodIssue) ∈ (parseShape shp d).1
  | .nil, _, _, _, _, _, hmem, _, _ => by simp [Shape.toList] at hmem
  | .cons k' t' rest, d, k, t, is, i, hmem, herr, hi => by
    simp only [Shape.toList, List.mem_cons, Prod.mk.injEq] at hmem
    rcases hmem with ⟨hk, ht⟩ | hmem
    · subst hk; subst ht
      simp only [parseShape, herr]
      exact List.mem_append_left _ (List.mem_map_of_mem _ hi)
    · have ih := parseShape_mem_issues rest d k t is i hmem herr hi
      simp only [parseShape]
      cases hfp : fieldParse t' (d.lookup k') with
      | ok w => cases w <;> simpa using ih
      | error is' => exact List.mem_append_right _ ih

/-- A missing field whose parse materializes a value (a Default layer's
    value) contributes that value to the assembled output pairs. -/
theorem parseShape_mem_output : ∀ (shp : Shape) (d : List (String × JsValue))
    (k : String) (t : ZodType) (w : JsValue),
    (k, t) ∈ shp.toList → fieldParse t (d.lookup k) = .ok (some w) →
    (k, w) ∈ (parseShape shp d).2
  | .nil, _, _, _, _, hmem, _ => by simp [Shape.toList] at hmem
  | .cons k' t' rest, d, k, t, w, hmem, hval => by
    simp only [Shape.toList, List.mem_cons, Prod.mk.injEq] at hmem
    rcases hmem with ⟨hk, ht⟩ | hmem
    · subst hk; subst ht
      simp [parseShape, hval]
    · have ih := parseShape_mem_output rest d k t w hmem hval
      simp only [parseShape]
      cases hfp : fieldParse t' (d.lookup k') with
      | ok o => cases o <;> simp [ih]
      | error is' => simpa using ih

/-- C1: For every field of the input schema, the resulting Target Field
    Definition has `required = false` exactly when the field's descriptor was
    wrapped in an Optional layer at any wrapper nesting depth, and
    `required = true` otherwise; `required` is always the boolean negation of
    "was wrapped in Optional". -/
theorem required_negates_optional_wrapping (shp : Shape) (k : String) (t : ZodType)
    (hmem : (k, t) ∈ shp.toList) :
    ∃ f, (k, f) ∈ zodToMongoose shp ∧ f.required = !hasOptionalWrapper t ∧
      (f.required = false ↔ hasOptionalWrapper t = true) :=
  ⟨convertField t, mem_zodToMongoose shp k t hmem, convertField_required t, by
    rw [convertField_required t]; cases hasOptionalWrapper t <;> simp⟩

/-- Witness for C1 at a concrete optional field. -/
theorem required_negates_optional_wrapping_witness :
    ∃ f, ("age", f) ∈ zodToMongoose (.cons "age" (.optional (.number [])) .nil) ∧
      f.required = !hasOptionalWrapper (.optional (.number [])) ∧
      (f.required = false ↔ hasOptionalWrapper (.optional (.number [])) = true) :=
  required_negates_optional_wrapping _ "age" (.optional (.number []))
    (by simp [Shape.toList])

/-- C2 counterexample: for the doubly-defaulted field
    `z.string().default("inner").default("outer")` — whose first Defaulted
    layer seen during outermost-first unwrapping carries the value "outer" —
    the converter keeps the innermost layer's value "inner", so the captured
    default is not the first-seen Defaulted layer's value. -/
theorem default_capture_first_seen_refuted :
    (convertField (.withDefault (.withDefault (.string []) (.str "inner"))
        (.str "outer"))).default = some (.str "inner") ∧
    firstDefaultValue (.withDefault (.withDefault (.string []) (.str "inner"))
        (.str "outer")) = some (.str "outer") ∧
    (convertField (.withDefault (.withDefault (.string []) (.str "inner"))
        (.str "outer"))).default ≠
      firstDefaultValue (.withDefault (.withDefault (.string []) (.str "inner"))
        (.str "outer")) :=
  ⟨rfl, rfl, by decide⟩

/-- C2 amended: for every field, the resulting definition's `default` is the
    value of the innermost Defaulted layer of the wrapper chain — each
    Defaulted layer seen during unwrapping overwrites the captured value —
    regardless of optionality; in particular, a field wrapped in exactly one
    Defaulted modifier with value V gets `default = V` at any wrapper nesting
    depth, including under Optional or Nullable layers. -/
theorem default_is_innermost_defaulted_value (shp : Shape) (k : String) (t : ZodType)
    (hmem : (k, t) ∈ shp.toList) :
    ∃ f, (k, f) ∈ zodToMongoose shp ∧ f.default = capturedDefaultValue t :=
  ⟨convertField t, mem_zodToMongoose shp k t hmem, convertField_default t⟩

/-- Witness for the amended C2 at a single Defaulted layer under an Optional
    layer: the default is materialized regardless of optionality. -/
theorem default_is_innermost_defaulted_value_witness :
    (∃ f, ("age", f) ∈ zodToMongoose
        (.cons "age" (.optional (.withDefault (.number []) (.num 30))) .nil) ∧
      f.default = capturedDefaultValue (.optional (.withDefault (.number []) (.num 30)))) ∧
    capturedDefaultValue (.optional (.withDefault (.number []) (.num 30))) = some (.num 30) :=
  ⟨default_is_innermost_defaulted_value _ "age" _ (by simp [Shape.toList]), rfl⟩

/-- C3: a field whose unwrapped descriptor structurally matches the Reference
    Marker shape — an object with a string-literal `_ref` field naming the
    target collection and an `id` field that is a string carrying a length-24
    check — produces the ObjectId type with `ref` set to the collection name,
    and no scalar-branch property populated. -/
theorem reference_marker_yields_objectid_ref (t : ZodType) (shp : Shape)
    (m : String) (idChecks : List StringCheck)
    (hbase : unwrapBase t = .object shp)
    (href : shp.lookup "_ref" = some (.litStr m))
    (hid : shp.lookup "id" = some (.string idChecks))
    (h24 : hasLength24 idChecks = true) :
    (convertField t).type = some .objectId ∧
    (convertField t).ref = some m ∧
    (convertField t).minlength = none ∧ (convertField t).maxlength = none ∧
    (convertField t).matchPattern = none ∧ (convertField t).length = none ∧
    (convertField t).enum = none ∧ (convertField t).min = none ∧
    (convertField t).max = none ∧ (convertField t).validate = none := by
  have hdet : detectRef (unwrapBase t) = some m := by
    rw [hbase]; simp [detectRef, href, hid, h24]
  simp only [convertField, unwrap_eq, hdet, Bool.false_or]
  cases (capturedDefaultValue t).isSome <;> simp [emptyField]

/-- Witness for C3 at the marker `zodRef` would denote before its transform:
    `{_ref: z.literal("User"), id: z.string().length(24)}`. -/
theorem reference_marker_yields_objectid_ref_witness :
    (convertField (.object (.cons "_ref" (.litStr "User")
        (.cons "id" (.string [.length 24]) .nil)))).type = some .objectId ∧
    (convertField (.object (.cons "_ref" (.litStr "User")
        (.cons "id" (.string [.length 24]) .nil)))).ref = some "User" ∧
    (convertField (.object (.cons "_ref" (.litStr "User")
        (.cons "id" (.string [.length 24]) .nil)))).minlength = none ∧
    (convertField (.object (.cons "_ref" (.litStr "User")
        (.cons "id" (.string [.length 24]) .nil)))).maxlength = none ∧
    (convertField (.object (.cons "_ref" (.litStr "User")
        (.cons "id" (.string [.length 24]) .nil)))).matchPattern = none ∧
    (convertField (.object (.cons "_ref" (.litStr "User")
        (.cons "id" (.string [.length 24]) .nil)))).length = none ∧
    (convertField (.object (.cons "_ref" (.litStr "User")
        (.cons "id" (.string [.length 24]) .nil)))).enum = none ∧
    (convertField (.object (.cons "_ref" (.litStr "User")
        (.cons "id" (.string [.length 24]) .nil)))).min = none ∧
    (convertField (.object (.cons "_ref" (.litStr "User")
        (.cons "id" (.string [.length 24]) .nil)))).max = none ∧
    (convertField (.object (.cons "_ref" (.litStr "User")
        (.cons "id" (.string [.length 24]) .nil)))).validate = none :=
  reference_marker_yields_objectid_ref _ _ "User" [.length 24] rfl
    (by simp [Shape.lookup]) (by simp [Shape.lookup]) rfl

/-- C4: an Array-of-String field with no relationship-table entry is typed as
    an array of strings (both in the converter under `src/` and in the
    spec-modelled table-accepting classifier), and any Array field whose name
    the relationship-mapping table maps is classified as an array of
    references to the table's value. -/
theorem array_fields_scalar_or_table_ref (checks : List StringCheck)
    (fieldName : String) (tbl tblWithEntry : List (String × String))
    (elem : ZodType) (m : String)
    (hnone : tbl.lookup fieldName = none)
    (hsome : tblWithEntry.lookup fieldName = some m) :
    (convertField (.array (.string checks))).type = some (.arr .eString) ∧
    (convertField (.array (.string checks))).ref = none ∧
    classifyDocField (.array (.string checks)) fieldName tbl = .arrayScalar .eString ∧
    classifyDocField (.array elem) fieldName tblWithEntry = .arrayRef m := by
  refine ⟨rfl, rfl, ?_, ?_⟩
  · simp [classifyDocField, hnone, detectRef, elemTag]
  · simp [classifyDocField, hsome]

/-- Witness for C4 at the `tags` field of the spec's array scenario. -/
theorem array_fields_scalar_or_table_ref_witness :
    (convertField (.array (.string []))).type = some (.arr .eString) ∧
    (convertField (.array (.string []))).ref = none ∧
    classifyDocField (.array (.string [])) "tags" [] = .arrayScalar .eString ∧
    classifyDocField (.array (.string [])) "tags" [("tags", "Tag")] = .arrayRef "Tag" :=
  array_fields_scalar_or_table_ref [] "tags" [] [("tags", "Tag")] (.string []) "Tag"
    rfl (by simp [List.lookup])

/-- C5: on an Object-shaped schema, `zodToObject` with `partial = true` first
    widens every field to Optional, so a data object that omits a required
    field (but whose present fields are valid and whose keys all belong to
    the shape) succeeds and returns the partial object unchanged; the same
    call without the option raises the aggregate validation error naming the
    missing field. -/
theorem zodToObject_partial_widens_nonpartial_reports (shp : Shape)
    (d : List (String × JsValue)) (k0 : String) (t0 : ZodType)
    (hmem : (k0, t0) ∈ shp.toList)
    (hmiss : d.lookup k0 = none)
    (hreq : parseUndef t0 = .error [⟨[], "Required"⟩])
    (hok : ∀ k t, (k, t) ∈ shp.toList → ∀ v, d.lookup k = some v → parseValue t v = .ok v)
    (hres : restrictShape shp d = d) :
    zodToObject (.object shp) (.obj d) (some true) = .ok (.obj d) ∧
    ∃ issues : List ZodIssue, zodToObject (.object shp) (.obj d) none =
        .error ("Zod validation error: " ++
          String.intercalate ", " (issues.map renderIssue)) ∧
      (⟨[k0], "Required"⟩ : ZodIssue) ∈ issues := by
  have hfp : fieldParse t0 (d.lookup k0) = .error [⟨[], "Required"⟩] := by
    rw [hmiss]; simpa [fieldParse] using hreq
  have hmemIssue : (⟨[k0], "Required"⟩ : ZodIssue) ∈ (parseShape shp d).1 :=
    parseShape_mem_issues shp d k0 t0 [⟨[], "Required"⟩] ⟨[], "Required"⟩
      hmem hfp (by simp)
  constructor
  · have hw := parseShape_widen shp d hok
    simp [zodToObject, effectiveSchema, parseValue, hw, hres]
  · refine ⟨(parseShape shp d).1, ?_, hmemIssue⟩
    have hie : (parseShape shp d).1.isEmpty = false := by
      cases hpe : (parseShape shp d).1 with
      | nil => rw [hpe] at hmemIssue; simp at hmemIssue
      | cons a l => rfl
    simp [zodToObject, effectiveSchema, parseValue, hie]

/-- Witness for C5: schema `{name: z.string(), age: z.number()}` against the
    data `{name: "John"}`. -/
theorem zodToObject_partial_widens_nonpartial_reports_witness :
    zodToObject (.object (.cons "name" (.string []) (.cons "age" (.number []) .nil)))
        (.obj [("name", .str "John")]) (some true) =
      .ok (.obj [("name", .str "John")]) ∧
    ∃ issues : List ZodIssue, zodToObject (.object (.cons "name" (.string [])
          (.cons "age" (.number []) .nil)))
        (.obj [("name", .str "John")]) none =
        .error ("Zod validation error: " ++
          String.intercalate ", " (issues.map renderIssue)) ∧
      (⟨["age"], "Required"⟩ : ZodIssue) ∈ issues :=
  zodToObject_partial_widens_nonpartial_reports _ _ "age" (.number [])
    (by simp [Shape.toList])
    (by simp [List.lookup])
    (by simp [parseUndef])
    (by
      intro k t hmem v hv
      simp only [Shape.toList, List.mem_cons, Prod.mk.injEq, List.not_mem_nil,
        or_false] at hmem
      rcases hmem with ⟨hk, ht⟩ | ⟨hk, ht⟩ <;> subst hk <;> subst ht <;>
        simp [List.lookup] at hv
      subst hv
      simp [parseValue, stringCheckMsgs])
    (by simp [restrictShape, List.lookup])

/-- C6: `zodToObject` either returns the parsed (fully coerced) value or
    raises the single aggregate error rendering every issue of the parse as
    `"<dotted.path> - <message>"` joined by `", "`; the underlying object
    parse aggregates — every violating field's issues appear, key-prefixed,
    in the reported list (no fail-fast), and a missing defaulted field's
    materialized value appears in the assembled success output. -/
theorem zodToObject_aggregate_error_reporting :
    (∀ (schema : ZodType) (data : JsValue) (opts : Option Bool),
      (∃ v, parseValue (effectiveSchema schema opts) data = .ok v ∧
        zodToObject schema data opts = .ok v) ∨
      (∃ issues, parseValue (effectiveSchema schema opts) data = .error issues ∧
        zodToObject schema data opts =
          .error ("Zod validation error: " ++
            String.intercalate ", " (issues.map renderIssue)))) ∧
    (∀ (shp : Shape) (d : List (String × JsValue)) (k : String) (t : ZodType)
        (is : List ZodIssue) (i : ZodIssue),
      (k, t) ∈ shp.toList → fieldParse t (d.lookup k) = .error is → i ∈ is →
      (⟨k :: i.path, i.message⟩ : ZodIssue) ∈ (parseShape shp d).1) ∧
    (∀ (shp : Shape) (d : List (String × JsValue)) (k : String) (t : ZodType)
        (w : JsValue),
      (k, t) ∈ shp.toList → fieldParse t (d.lookup k) = .ok (some w) →
      (k, w) ∈ (parseShape shp d).2) := by
  refine ⟨?_, parseShape_mem_issues, parseShape_mem_output⟩
  intro schema data opts
  cases hp : parseValue (effectiveSchema schema opts) data with
  | ok v => exact .inl ⟨v, rfl, by simp [zodToObject, hp]⟩
  | error issues => exact .inr ⟨issues, rfl, by simp [zodToObject, hp]⟩

/-- Witness for C6: a missing required field's issue is reported and a
    missing defaulted field's value is materialized, on concrete shapes. -/
theorem zodToObject_aggregate_error_reporting_witness :
    ((⟨["a"], "Required"⟩ : ZodIssue) ∈
      (parseShape (.cons "a" (.string []) .nil) []).1) ∧
    (("b", .num 5) ∈
      (parseShape (.cons "b" (.withDefault (.number []) (.num 5)) .nil) []).2) :=
  ⟨zodToObject_aggregate_error_reporting.2.1 _ [] "a" (.string [])
      [⟨[], "Required"⟩] ⟨[], "Required"⟩ (by simp [Shape.toList])
      (by simp [fieldParse, List.lookup, parseUndef]) (by simp),
   zodToObject_aggregate_error_reporting.2.2 _ [] "b"
      (.withDefault (.number []) (.num 5)) (.num 5) (by simp [Shape.toList])
      (by simp [fieldParse, List.lookup, parseUndef, parseValue, numCheckMsgs,
        valueToJs, Except.map])⟩

/-- C7: the document-schema converter is total — it yields exactly one
    definition per input field for every input shape — and every field whose
    unwrapped descriptor is not one of the recognized kinds silently degrades
    to the opaque Mixed type. -/
theorem converter_total_unrecognized_degrades_mixed (shp : Shape) (k : String)
    (t : ZodType) (hmem : (k, t) ∈ shp.toList)
    (hun : recognizedKind (unwrapBase t) = false) :
    (zodToMongoose shp).length = shp.toList.length ∧
    ∃ f, (k, f) ∈ zodToMongoose shp ∧ f.type = some .mMixed := by
  refine ⟨zodToMongoose_length shp, convertField t, mem_zodToMongoose shp k t hmem, ?_⟩
  have hdet : detectRef (unwrapBase t) = none := by
    cases hb : unwrapBase t <;> simp_all [recognizedKind, detectRef]
  have hsf : (scalarField (unwrapBase t)).type = some .mMixed := by
    cases hb : unwrapBase t <;> simp_all [recognizedKind, scalarField, emptyField]
  simp only [convertField, unwrap_eq, hdet, Bool.false_or]
  cases (capturedDefaultValue t).isSome <;> simp [hsf]

/-- Witness for C7 at a transform-wrapped (`ZodEffects`) field, which none of
    the recognized cases match. -/
theorem converter_total_unrecognized_degrades_mixed_witness :
    (zodToMongoose (.cons "v" (.effects (.string []) id) .nil)).length =
      (Shape.cons "v" (.effects (.string []) id) .nil).toList.length ∧
    ∃ f, ("v", f) ∈ zodToMongoose (.cons "v" (.effects (.string []) id) .nil) ∧
      f.type = some .mMixed :=
  converter_total_unrecognized_degrades_mixed _ "v" (.effects (.string []) id)
    (by simp [Shape.toList]) rfl

/-- C8: if any model entry's schema is not Object-shaped, the relational
    generator raises the fixed descriptive unsupported-schema-kind error and
    never returns any (even partial) schema text. -/
theorem zodToPrisma_rejects_non_object_schemas (models : List (String × ZodType))
    (sToN : List (ZodType × String)) (nToS : List (String × ZodType))
    (h : ∃ p ∈ models, isObjectSchema p.2 = false) :
    zodToPrisma models sToN nToS =
      .error "Only ZodObject schemas are supported for Prisma model generation." ∧
    ∀ s, zodToPrisma models sToN nToS ≠ .ok s := by
  have hall : (models.all fun m => isObjectSchema m.2) = false := by
    rcases h with ⟨p, hp, hf⟩
    rw [List.all_eq_false]
    exact ⟨p, hp, by simp [hf]⟩
  refine ⟨by simp [zodToPrisma, hall], fun s => by simp [zodToPrisma, hall]⟩

/-- Witness for C8 at the test's invalid entry: a bare string schema. -/
theorem zodToPrisma_rejects_non_object_schemas_witness :
    zodToPrisma [("Invalid", .string [])] [] [] =
      .error "Only ZodObject schemas are supported for Prisma model generation." ∧
    ∀ s, zodToPrisma [("Invalid", .string [])] [] [] ≠ .ok s :=
  zodToPrisma_rejects_non_object_schemas [("Invalid", .string [])] [] []
    ⟨("Invalid", .string []), by simp, rfl⟩

/-- C9: registering a model twice under the same name returns the identical
    model both times and leaves the registry unchanged on the second call —
    the name-keyed re-registration guard makes `createMongooseModel`
    idempotent. -/
theorem createMongooseModel_idempotent (reg : Registry) (name : String)
    (s1 s2 : Shape) :
    (createMongooseModel (createMongooseModel reg name s1).2 name s2).1 =
      (createMongooseModel reg name s1).1 ∧
    (createMongooseModel (createMongooseModel reg name s1).2 name s2).2 =
      (createMongooseModel reg name s1).2 := by
  unfold createMongooseModel
  cases h : List.lookup name reg with
  | some m => simp [h]
  | none => simp [h, List.lookup]

/-- C10: a field built by `zodRef` is a `ZodEffects` wrapper, which the
    unwrap loop does not strip and the Reference Marker detection (which
    requires a plain `ZodObject`) does not match, so the field falls through
    to the default branch: opaque Mixed type and no `ref` entry. -/
theorem zodRef_falls_through_to_mixed (modelName : String) (idSchema : ZodType) :
    unwrapBase (zodRef modelName idSchema) = zodRef modelName idSchema ∧
    detectRef (unwrapBase (zodRef modelName idSchema)) = none ∧
    (convertField (zodRef modelName idSchema)).type = some .mMixed ∧
    (convertField (zodRef modelName idSchema)).ref = none :=
  ⟨rfl, rfl, rfl, rfl⟩
